import Mathlib

/-!
Shallow embedding of the core of the `dice_game` repository
(src/game.js, src/t.js, src/unnamed/part_000): the non-transitive dice
probability engine (`ProbabilityCalculator`) and the commit-reveal fair
random generation protocol (`FairRandomGenerator`, `Game.fairThrow`).

Modelling conventions:
* JavaScript numbers holding exact small integers/rationals are modelled
  as `Int` / `Nat` / `Rat`.  The only floating-point step in the engine is
  `Number((count / 36).toFixed(4))` for `count ∈ [0, 36]`; the rounding
  boundaries of `toFixed(4)` lie at odd multiples of `1/2 · 10^-4`, while
  `count/36 · 10^4` always has fractional part `k/9` (never `1/2`), and the
  double nearest to `count/36` is within `2^-52` of the exact value, so the
  computed double rounds exactly like the exact rational under
  round-half-up; we model it as `toFixed4` on `Rat`.
* `NaN` (produced by `parseInt` on a non-numeric string) is modelled as
  `Option.none`; JavaScript array indexing out of range or with `NaN`
  yields `undefined`, modelled as `Option.none`.
* Entropy consumed from `crypto` (`randomBytes`, `randomInt`) is passed
  explicitly: the fresh key string and a raw entropy number from which
  `randomInt` derives a value in `[0, range)`.  `crypto.randomInt(0, range)`
  rejects a non-positive range (it requires `max > min`); this failure is
  the `InvalidRangeError` of the spec's error taxonomy.
* The HMAC-SHA3-256 construction is a deterministic keyed function of the
  key string and message string; the protocol-level claims hold for every
  such function, so the embedding is parametrised by `mac : String →
  String → String` (instantiated with a concrete stand-in for witnesses).
-/

/-- Rounding of a nonnegative rational to 4 decimal places, half away from
zero, modelling `Number(q.toFixed(4))` for the rationals `count/36`
(`count ∈ [0,36]`), on which JavaScript `toFixed` agrees with exact
half-up rounding (no representational ties occur, see module docstring). -/
def toFixed4 (q : Rat) : Rat :=
  ((q * 10000 + 1/2).floor : Rat) / 10000

/-- The nested counting loop of
`ProbabilityCalculator.calculateProbability` (src/game.js lines 33–40):
`for (let a of diceA) for (let b of diceB) if (a > b) count++`. -/
def calculateProbabilityCount (diceA diceB : List Int) : Nat :=
  diceA.foldl (fun count a =>
    diceB.foldl (fun count b => if a > b then count + 1 else count) count) 0

/-- Embedding of `ProbabilityCalculator.calculateProbability` (src/game.js lines 32–44):
the strictly-greater count over the 36 face pairs, divided by the
hard-coded `totalOutcomes = 36`, then `Number((count/36).toFixed(4))`. -/
def calculateProbability (diceA diceB : List Int) : Rat :=
  toFixed4 ((calculateProbabilityCount diceA diceB : Rat) / 36)

/-- An entry of the probability matrix built by
`ProbabilityCalculator.calculate`: either the literal diagonal string
`"- (0.3333)"` or a computed number. -/
inductive MatrixEntry where
  | label (s : String)
  | value (q : Rat)
deriving DecidableEq, Repr

/-- Embedding of `ProbabilityCalculator.calculate` (src/game.js lines 45–61): a square
matrix over the dice set, `"- (0.3333)"` on the diagonal and
`calculateProbability(diceSet[i].faces, diceSet[j].faces)` off it.
A die is represented by its face list. -/
def calculate (diceSet : List (List Int)) : List (List MatrixEntry) :=
  (List.range diceSet.length).map (fun i =>
    (List.range diceSet.length).map (fun j =>
      if i = j then MatrixEntry.label "- (0.3333)"
      else MatrixEntry.value
        (calculateProbability (diceSet.getD i []) (diceSet.getD j []))))

/-- An entry of the matrix built by the `src/t.js` copy of
`ProbabilityCalculator.calculate`: the diagonal string `"- (0.3333)"`, or
`Math.random().toFixed(4)` — a string rendering of a freshly drawn random
number, carried here as the rounded rational it renders. -/
inductive TEntry where
  | selfLabel
  | randomStr (q : Rat)
deriving DecidableEq, Repr

/-- The `src/t.js` copy of `ProbabilityCalculator.calculate` (lines
35–48): same diagonal constant, but every off-diagonal entry is
`Math.random().toFixed(4)  // Placeholder`.  The stream of values returned
by `Math.random()` is passed explicitly as `rand i j` (the draw consumed
at row `i`, column `j`). -/
def calculateT (rand : Nat → Nat → Rat) (diceSet : List (List Int)) :
    List (List TEntry) :=
  (List.range diceSet.length).map (fun i =>
    (List.range diceSet.length).map (fun j =>
      if i = j then TEntry.selfLabel else TEntry.randomStr (toFixed4 (rand i j))))

/-- Embedding of `Dice.roll(index)` (src/game.js lines 13–15): `this.faces[index]`.
JavaScript indexing with `NaN` (modelled `none`), a negative index or an
index past the end yields `undefined` (modelled `none`). -/
def roll (faces : List Int) (index : Option Int) : Option Int :=
  match index with
  | none => none
  | some i => if h : 0 ≤ i ∧ i.toNat < faces.length then some faces[i.toNat] else none

/-- The commitment triple `{ randomValue, hmac, key }` returned by
`FairRandomGenerator.generateRandom`. -/
structure Commitment where
  randomValue : Nat
  hmac : String
  key : String
deriving DecidableEq, Repr

/-- Failure of `crypto.randomInt(0, range)` when `range ≤ 0` (Node rejects
`max ≤ min`); the spec's `InvalidRangeError`. -/
inductive GenError where
  | invalidRange
deriving DecidableEq, Repr

/-- Embedding of `crypto.randomInt(0, range)`: fails when `range ≤ 0`, otherwise draws
a value in `[0, range)`; the draw is the explicit entropy `entropy`
reduced into the range. -/
def randomInt (entropy : Nat) (range : Int) : Except GenError Nat :=
  if range ≤ 0 then Except.error GenError.invalidRange
  else Except.ok (entropy % range.toNat)

/-- Embedding of `FairRandomGenerator.generateRandom` (src/game.js lines 115–123):
draw a fresh 32-byte key (hex string `entropyKey`), draw
`randomValue = crypto.randomInt(0, range)`, publish
`hmac = HMAC-SHA3-256(key, randomValue.toString())` (hex).  Parametrised
by the deterministic keyed function `mac`. -/
def generateRandom (mac : String → String → String) (entropyKey : String)
    (entropyVal : Nat) (range : Int) : Except GenError Commitment :=
  match randomInt entropyVal range with
  | Except.error e => Except.error e
  | Except.ok randomValue =>
      Except.ok { randomValue := randomValue
                  hmac := mac entropyKey (toString randomValue)
                  key := entropyKey }

/-- Embedding of `FairRandomGenerator.verifyHMAC` (src/game.js lines 125–131):
recompute `HMAC-SHA3-256(key, value.toString())` and return
`hmac === calculatedHMAC`.  Total: every input yields a boolean. -/
def verifyHMAC (mac : String → String → String) (value : Nat)
    (key hmac : String) : Bool :=
  hmac == mac key (toString value)

/-- A concrete deterministic stand-in for HMAC-SHA3-256 used to
instantiate witnesses: some fixed-key-and-message-determined string. -/
def macDemo (key msg : String) : String :=
  key ++ ":" ++ msg

/-- Embedding of `parseInt(s, 10)`: skip leading whitespace, read an optional sign and
the longest leading run of decimal digits; `NaN` (here `none`) if that run
is empty. -/
def parseIntJS (s : String) : Option Int :=
  let cs := s.toList.dropWhile (fun c => c = ' ' ∨ c = '\t' ∨ c = '\n' ∨ c = '\r')
  let signRest : Int × List Char :=
    match cs with
    | '-' :: r => (-1, r)
    | '+' :: r => (1, r)
    | r => (1, r)
  let ds := signRest.2.takeWhile Char.isDigit
  if ds.isEmpty then none
  else some (signRest.1 * (ds.foldl (fun acc c => acc * 10 + (c.toNat - 48)) 0 : Nat))

/-- Outcome of one run of `Game.fairThrow`. -/
inductive ThrowOutcome where
  | awaiting
  | genError (e : GenError)
  | exitGame
  | thrown (r : Option Int)
deriving DecidableEq, Repr

/-- Embedding of `Game.fairThrow(range, player)` (src/game.js lines 206–235): generate
a fresh commitment, prompt for the user's number; `"x"`/`"X"` exits the
process, `"?"` prints the probability table and recurses with a fresh
commitment, and any other answer is fed to
`(randomValue + parseInt(userNumber, 10)) % range` (JavaScript `%` is the
truncating remainder, `Int.tmod`; `NaN` propagates as `none`).  Each
round of the interaction supplies its entropy and the prompt answer;
`awaiting` marks a run still blocked on input. -/
def fairThrow (mac : String → String → String) (range : Int)
    (rounds : List (String × Nat × String)) : ThrowOutcome :=
  match rounds with
  | [] => ThrowOutcome.awaiting
  | (entropyKey, entropyVal, userNumber) :: rest =>
      match generateRandom mac entropyKey entropyVal range with
      | Except.error e => ThrowOutcome.genError e
      | Except.ok c =>
          if userNumber = "x" ∨ userNumber = "X" then ThrowOutcome.exitGame
          else if userNumber = "?" then fairThrow mac range rest
          else ThrowOutcome.thrown
            ((parseIntJS userNumber).map
              (fun p => Int.tmod ((c.randomValue : Int) + p) range))

/-- The spec's enumeration of ordered face pairs: all `(a ∈ dieA, b ∈ dieB)`. -/
def specPairs (dieA dieB : List Int) : List (Int × Int) :=
  dieA.flatMap (fun a => dieB.map (fun b => (a, b)))

/-- Modelled from the spec: `pairwiseWinProbability` as §4.4 words it —
"enumerate all 36 ordered pairs `(a ∈ dieA.faces, b ∈ dieB.faces)`; count
pairs where `a > b`; divide by 36; round to a fixed number of decimal
places (4)". -/
def specWinCount (dieA dieB : List Int) : Nat :=
  (specPairs dieA dieB).countP (fun p => decide (p.2 < p.1))

/-- Number of tied ordered pairs (equal faces) between two dice. -/
def tieCount (dieA dieB : List Int) : Nat :=
  (specPairs dieA dieB).countP (fun p => decide (p.1 = p.2))

/-! ### Helper lemmas: the rounding arithmetic over `Nat` -/

/-- The numerator of `toFixed4 (c/36)` in units of `10^-4`. -/
def roundNat (c : Nat) : Nat := (5000 * c + 9) / 18

theorem rat_floor_eq_intFloor (q : Rat) : Rat.floor q = ⌊q⌋ := rfl

theorem toFixed4_natCast_div (c : Nat) :
    toFixed4 ((c : Rat) / 36) = ((roundNat c : Nat) : Rat) / 10000 := by
  have h1 : (c : Rat) / 36 * 10000 + 1 / 2
      = ((5000 * c + 9 : Nat) : Rat) / ((18 : Nat) : Rat) := by
    push_cast
    ring
  unfold toFixed4
  rw [h1, rat_floor_eq_intFloor, Rat.floor_natCast_div_natCast, ← Int.natCast_div,
    Int.cast_natCast, roundNat]

theorem roundNat_pair_eq : ∀ c1 : Nat, c1 ≤ 36 → roundNat c1 + roundNat (36 - c1) = 10000 := by
  decide

theorem roundNat_pair_lt : ∀ c1 : Nat, c1 ≤ 35 → roundNat c1 + roundNat (35 - c1) < 10000 := by
  decide

theorem roundNat_mono {c c' : Nat} (h : c ≤ c') : roundNat c ≤ roundNat c' := by
  unfold roundNat
  exact Nat.div_le_div_right (by omega)

theorem roundNat_sum_eq {c1 c2 : Nat} (h : c1 + c2 = 36) :
    roundNat c1 + roundNat c2 = 10000 := by
  have h1 : c2 = 36 - c1 := by omega
  subst h1
  exact roundNat_pair_eq c1 (by omega)

theorem roundNat_sum_lt {c1 c2 : Nat} (h : c1 + c2 ≤ 35) :
    roundNat c1 + roundNat c2 < 10000 := by
  have h1 : roundNat c2 ≤ roundNat (35 - c1) := roundNat_mono (by omega)
  have h2 := roundNat_pair_lt c1 (by omega)
  omega

theorem toFixed4_count_sum (c1 c2 : Nat) :
    toFixed4 ((c1 : Rat) / 36) + toFixed4 ((c2 : Rat) / 36)
      = ((roundNat c1 + roundNat c2 : Nat) : Rat) / 10000 := by
  rw [toFixed4_natCast_div, toFixed4_natCast_div]
  push_cast
  ring

theorem natCast_div_eq_one_iff (n : Nat) : ((n : Rat) / 10000 = 1) ↔ n = 10000 := by
  rw [div_eq_one_iff_eq (by norm_num)]
  norm_cast

theorem natCast_div_lt_one_iff (n : Nat) : ((n : Rat) / 10000 < 1) ↔ n < 10000 := by
  rw [div_lt_one (by norm_num)]
  norm_cast

/-! ### Helper lemmas: the counting loop versus the spec enumeration -/

/-- The spec-side count of pairs lost by the first die (`a < b`). -/
def specLoseCount (dieA dieB : List Int) : Nat :=
  (specPairs dieA dieB).countP (fun p => decide (p.1 < p.2))

theorem foldl_count_inner (a : Int) (B : List Int) :
    ∀ n : Nat, B.foldl (fun c b => if a > b then c + 1 else c) n
      = n + B.countP (fun b => decide (b < a)) := by
  induction B with
  | nil => intro n; simp
  | cons b B ih =>
      intro n
      by_cases h : b < a
      · simp [List.countP_cons, List.foldl_cons, h, ih, gt_iff_lt]
        omega
      · simp [List.countP_cons, List.foldl_cons, h, ih, gt_iff_lt]

theorem specWinCount_nil (B : List Int) : specWinCount [] B = 0 := by
  simp [specWinCount, specPairs]

theorem specWinCount_cons (a : Int) (A B : List Int) :
    specWinCount (a :: A) B = B.countP (fun b => decide (b < a)) + specWinCount A B := by
  simp only [specWinCount, specPairs, List.flatMap_cons, List.countP_append, List.countP_map]
  congr 1

theorem calculateProbabilityCount_foldl (A B : List Int) :
    ∀ n : Nat,
      A.foldl (fun count a =>
        B.foldl (fun count b => if a > b then count + 1 else count) count) n
      = n + specWinCount A B := by
  induction A with
  | nil => intro n; simp [specWinCount_nil]
  | cons a A ih =>
      intro n
      rw [List.foldl_cons, ih, foldl_count_inner, specWinCount_cons]
      omega

/-- The source's nested loop computes exactly the spec's enumeration count. -/
theorem calculateProbabilityCount_eq_spec (A B : List Int) :
    calculateProbabilityCount A B = specWinCount A B := by
  unfold calculateProbabilityCount
  rw [calculateProbabilityCount_foldl]
  omega

theorem specPairs_nil_right (A : List Int) : specPairs A [] = [] := by
  induction A <;> simp_all [specPairs]

theorem specLoseCount_cons (a : Int) (A B : List Int) :
    specLoseCount (a :: A) B
      = B.countP (fun b => decide (a < b)) + specLoseCount A B := by
  simp only [specLoseCount, specPairs, List.flatMap_cons, List.countP_append, List.countP_map]
  congr 1

theorem tieCount_cons (a : Int) (A B : List Int) :
    tieCount (a :: A) B = B.countP (fun b => decide (a = b)) + tieCount A B := by
  simp only [tieCount, specPairs, List.flatMap_cons, List.countP_append, List.countP_map]
  congr 1

theorem countP_trichotomy (a : Int) (B : List Int) :
    B.countP (fun b => decide (b < a)) + B.countP (fun b => decide (a < b))
      + B.countP (fun b => decide (a = b)) = B.length := by
  induction B with
  | nil => simp
  | cons b B ih =>
      rcases lt_trichotomy b a with h | h | h
      · simp only [List.countP_cons, List.length_cons]
        simp [h, h.ne, h.ne', lt_asymm h]
        omega
      · subst h
        simp only [List.countP_cons, List.length_cons]
        simp [lt_irrefl]
        omega
      · simp only [List.countP_cons, List.length_cons]
        simp [h, h.ne, h.ne', lt_asymm h]
        omega

theorem specCounts_total (A B : List Int) :
    specWinCount A B + specLoseCount A B + tieCount A B = A.length * B.length := by
  induction A with
  | nil =>
      simp [specWinCount_nil, specLoseCount, tieCount, specPairs]
  | cons a A ih =>
      rw [specWinCount_cons, specLoseCount_cons, tieCount_cons]
      have h := countP_trichotomy a B
      simp only [List.length_cons, Nat.succ_mul]
      omega

theorem specWinCount_cons_right (A : List Int) (b : Int) (B : List Int) :
    specWinCount A (b :: B) = A.countP (fun x => decide (b < x)) + specWinCount A B := by
  induction A with
  | nil => simp [specWinCount_nil]
  | cons a A ih =>
      rw [specWinCount_cons, specWinCount_cons, ih]
      by_cases h : b < a <;> simp [List.countP_cons, h] <;> omega

theorem specLoseCount_nil (A : List Int) : specLoseCount A [] = 0 := by
  simp [specLoseCount, specPairs_nil_right]

theorem specLoseCount_cons_right (A : List Int) (b : Int) (B : List Int) :
    specLoseCount A (b :: B) = A.countP (fun x => decide (x < b)) + specLoseCount A B := by
  induction A with
  | nil => simp [specLoseCount, specPairs]
  | cons a A ih =>
      rw [specLoseCount_cons, specLoseCount_cons, ih]
      by_cases h : a < b <;> simp [List.countP_cons, h] <;> omega

theorem specLoseCount_eq_swap (A B : List Int) : specLoseCount A B = specWinCount B A := by
  induction B with
  | nil => rw [specWinCount_nil, specLoseCount_nil]
  | cons b B ih => rw [specLoseCount_cons_right, specWinCount_cons, ih]

/-- Trichotomy over the ordered pairs: wins of A, wins of B and ties
partition the `|A| * |B|` pairs. -/
theorem winCounts_add_tie (A B : List Int) :
    specWinCount A B + specWinCount B A + tieCount A B = A.length * B.length := by
  rw [← specLoseCount_eq_swap A B]
  exact specCounts_total A B

/-! ### Helper lemmas: matrix entry access -/

theorem map_range_getD {α : Type} (f : Nat → α) {n i : Nat} (h : i < n) (d : α) :
    ((List.range n).map f).getD i d = f i := by
  have hl : i < ((List.range n).map f).length := by simpa using h
  rw [List.getD_eq_getElem _ _ hl]
  simp

theorem calculate_getD (ds : List (List Int)) {i j : Nat}
    (hi : i < ds.length) (hj : j < ds.length) :
    ((calculate ds).getD i []).getD j (MatrixEntry.label "")
      = if i = j then MatrixEntry.label "- (0.3333)"
        else MatrixEntry.value
          (calculateProbability (ds.getD i []) (ds.getD j [])) := by
  unfold calculate
  rw [map_range_getD _ hi, map_range_getD _ hj]

theorem calculateT_getD (rand : Nat → Nat → Rat) (ds : List (List Int)) {i j : Nat}
    (hi : i < ds.length) (hj : j < ds.length) :
    ((calculateT rand ds).getD i []).getD j TEntry.selfLabel
      = if i = j then TEntry.selfLabel
        else TEntry.randomStr (toFixed4 (rand i j)) := by
  unfold calculateT
  rw [map_range_getD _ hi, map_range_getD _ hj]

/-! ### Claims -/

/-- C1: commit-reveal round trip — every triple `(secretKey, revealedValue,
digest)` returned by `generateRandom(range)` with `range ≥ 1` satisfies
`verifyHMAC(revealedValue, secretKey, digest) = true`: the verifier
recomputes the MAC over the same decimal-string encoding of the value with
the same key and compares it to the published digest.  Holds for every
deterministic keyed function `mac`. -/
theorem commit_reveal_roundtrip (mac : String → String → String)
    (entropyKey : String) (entropyVal : Nat) (range : Int) (c : Commitment)
    (hrange : 1 ≤ range)
    (hgen : generateRandom mac entropyKey entropyVal range = Except.ok c) :
    verifyHMAC mac c.randomValue c.key c.hmac = true := by
  simp only [generateRandom, randomInt, if_neg (show ¬range ≤ 0 by omega)] at hgen
  cases hgen
  simp [verifyHMAC]

theorem commit_reveal_roundtrip_witness :
    verifyHMAC macDemo 1 "ab" (macDemo "ab" "1") = true :=
  commit_reveal_roundtrip macDemo "ab" 7 3 ⟨1, macDemo "ab" "1", "ab"⟩
    (by norm_num) (by rfl)

/-- C6: range validation — for every `range ≤ 0`, `generateRandom` fails
with the invalid-range error (the spec's `InvalidRangeError`, raised by
`crypto.randomInt(0, range)`); for every `range ≥ 1` it succeeds and
returns a commitment built from the freshly drawn key, with
`randomValue ∈ [0, range)` and the digest bound to it. -/
theorem generateRandom_range_check (mac : String → String → String)
    (entropyKey : String) (entropyVal : Nat) (range : Int) :
    (range ≤ 0 →
      generateRandom mac entropyKey entropyVal range
        = Except.error GenError.invalidRange) ∧
    (1 ≤ range → ∃ c : Commitment,
      generateRandom mac entropyKey entropyVal range = Except.ok c ∧
      c.key = entropyKey ∧ c.randomValue < range.toNat ∧
      c.hmac = mac entropyKey (toString c.randomValue)) := by
  constructor
  · intro h
    simp [generateRandom, randomInt, h]
  · intro h
    have hpos : 0 < range.toNat := by omega
    refine ⟨⟨entropyVal % range.toNat,
      mac entropyKey (toString (entropyVal % range.toNat)), entropyKey⟩, ?_, rfl, ?_, rfl⟩
    · simp [generateRandom, randomInt, show ¬range ≤ 0 by omega]
    · exact Nat.mod_lt _ hpos

theorem generateRandom_range_check_witness :
    generateRandom macDemo "ab" 7 (-1) = Except.error GenError.invalidRange ∧
    ∃ c : Commitment, generateRandom macDemo "ab" 7 3 = Except.ok c ∧
      c.key = "ab" ∧ c.randomValue < (3 : Int).toNat ∧
      c.hmac = macDemo "ab" (toString c.randomValue) :=
  ⟨(generateRandom_range_check macDemo "ab" 7 (-1)).1 (by norm_num),
   (generateRandom_range_check macDemo "ab" 7 3).2 (by norm_num)⟩

/-- C4: for every dice set and every index `i`, the diagonal entry of the
probability matrix is the fixed self-play label `"- (0.3333)"` — and in
the `src/t.js` copy the corresponding self label — never a value computed
by the pairwise strict-inequality formula (no `MatrixEntry.value` at all
on the diagonal). -/
theorem diagonal_constant (ds : List (List Int)) (rand : Nat → Nat → Rat)
    (i : Nat) (hi : i < ds.length) :
    ((calculate ds).getD i []).getD i (MatrixEntry.label "")
      = MatrixEntry.label "- (0.3333)" ∧
    (∀ q : Rat,
      ((calculate ds).getD i []).getD i (MatrixEntry.label "")
        ≠ MatrixEntry.value q) ∧
    ((calculateT rand ds).getD i []).getD i TEntry.selfLabel
      = TEntry.selfLabel := by
  refine ⟨?_, ?_, ?_⟩
  · rw [calculate_getD ds hi hi]
    simp
  · intro q
    rw [calculate_getD ds hi hi]
    simp
  · rw [calculateT_getD rand ds hi hi]
    simp

theorem diagonal_constant_witness :
    ((calculate [[2,2,4,4,9,9],[6,8,1,1,8,6],[7,5,3,7,5,3]]).getD 0 []).getD 0
        (MatrixEntry.label "") = MatrixEntry.label "- (0.3333)" ∧
    (∀ q : Rat,
      ((calculate [[2,2,4,4,9,9],[6,8,1,1,8,6],[7,5,3,7,5,3]]).getD 0 []).getD 0
        (MatrixEntry.label "") ≠ MatrixEntry.value q) ∧
    ((calculateT (fun _ _ => 0) [[2,2,4,4,9,9],[6,8,1,1,8,6],[7,5,3,7,5,3]]).getD 0
        []).getD 0 TEntry.selfLabel = TEntry.selfLabel :=
  diagonal_constant [[2,2,4,4,9,9],[6,8,1,1,8,6],[7,5,3,7,5,3]]
    (fun _ _ => 0) 0 (by norm_num)

/-- C7 counterexample: a structurally malformed digest — the empty string,
not a 64-character hex digest — does not make `verifyHMAC` fail with any
`MalformedCommitmentError`: the function is total and simply returns the
boolean `false`.  No such error exists anywhere in the source. -/
theorem verifyHMAC_malformed_digest_no_error :
    verifyHMAC macDemo 1 "ab" "" = false := by decide

/-- C7 (amended): `verifyHMAC` never throws — for every `revealedValue`,
key and digest it returns a boolean, `false` on any digest mismatch; in
particular a digest whose length differs from the recomputed MAC's (wrong
length or encoding) yields `false` rather than a structural error. -/
theorem verifyHMAC_total (mac : String → String → String) (value : Nat)
    (key digest : String) :
    (verifyHMAC mac value key digest = true ∨
     verifyHMAC mac value key digest = false) ∧
    (digest.length ≠ (mac key (toString value)).length →
     verifyHMAC mac value key digest = false) := by
  constructor
  · cases h : verifyHMAC mac value key digest
    · exact Or.inr rfl
    · exact Or.inl rfl
  · intro h
    unfold verifyHMAC
    rw [beq_eq_false_iff_ne]
    intro heq
    exact h (by rw [heq])

theorem verifyHMAC_total_witness : verifyHMAC macDemo 5 "k" "xy" = false :=
  (verifyHMAC_total macDemo 5 "k" "xy").2 (by decide)

theorem calculateProbability_eq_roundNat (A B : List Int) :
    calculateProbability A B
      = ((roundNat (calculateProbabilityCount A B) : Nat) : Rat) / 10000 := by
  unfold calculateProbability
  rw [toFixed4_natCast_div]

/-- C2 counterexample: for A = [2,2,4,4,9,9] and B = [6,8,1,1,8,6], direct
enumeration gives 20 strictly-greater pairs out of 36, so
`calculateProbability(A, B) = 0.5556`, not the `≈ 0.4444` the claim
carries for "A beats B" (0.4444 is the probability that B beats A). -/
theorem pairwise_example_not_spec_literal :
    calculateProbability [2,2,4,4,9,9] [6,8,1,1,8,6] ≠ 0.4444 := by
  have h : calculateProbabilityCount [2,2,4,4,9,9] [6,8,1,1,8,6] = 20 := by decide
  rw [calculateProbability_eq_roundNat, h]
  norm_num [roundNat]

/-- C2 (amended): `calculateProbability` equals the exact count of ordered
face pairs with `a > b` out of 36, divided by 36 and rounded to 4 decimal
places; for A = [2,2,4,4,9,9] and B = [6,8,1,1,8,6] direct enumeration
gives 20 strictly-greater pairs and probability 0.5556 for A beats B
(and 16 pairs, 0.4444, for B beats A — the figure the spec attached to
the wrong direction). -/
theorem pairwise_win_probability_exact (dieA dieB : List Int) :
    calculateProbability dieA dieB
      = toFixed4 ((specWinCount dieA dieB : Rat) / 36) ∧
    specWinCount [2,2,4,4,9,9] [6,8,1,1,8,6] = 20 ∧
    calculateProbability [2,2,4,4,9,9] [6,8,1,1,8,6] = 0.5556 ∧
    specWinCount [6,8,1,1,8,6] [2,2,4,4,9,9] = 16 ∧
    calculateProbability [6,8,1,1,8,6] [2,2,4,4,9,9] = 0.4444 := by
  refine ⟨?_, by decide, ?_, by decide, ?_⟩
  · unfold calculateProbability
    rw [calculateProbabilityCount_eq_spec]
  · have h : calculateProbabilityCount [2,2,4,4,9,9] [6,8,1,1,8,6] = 20 := by decide
    rw [calculateProbability_eq_roundNat, h]
    norm_num [roundNat]
  · have h : calculateProbabilityCount [6,8,1,1,8,6] [2,2,4,4,9,9] = 16 := by decide
    rw [calculateProbability_eq_roundNat, h]
    norm_num [roundNat]

/-- C3: tie handling — equal faces count toward neither die.  For every
pair of distinct 6-face dice in the set, the strictly-greater counts sum
to at most 36, the off-diagonal matrix entry is the computed pairwise
probability, the two entries sum to exactly 1 iff the dice have no equal
face pair, and whenever they share at least one equal face value the sum
is strictly less than 1. -/
theorem tie_handling (ds : List (List Int)) (i j : Nat)
    (hij : i ≠ j) (hi : i < ds.length) (hj : j < ds.length)
    (hA : (ds.getD i []).length = 6) (hB : (ds.getD j []).length = 6) :
    specWinCount (ds.getD i []) (ds.getD j [])
      + specWinCount (ds.getD j []) (ds.getD i []) ≤ 36 ∧
    ((calculate ds).getD i []).getD j (MatrixEntry.label "")
      = MatrixEntry.value
          (calculateProbability (ds.getD i []) (ds.getD j [])) ∧
    (calculateProbability (ds.getD i []) (ds.getD j [])
       + calculateProbability (ds.getD j []) (ds.getD i []) = 1
     ↔ tieCount (ds.getD i []) (ds.getD j []) = 0) ∧
    (0 < tieCount (ds.getD i []) (ds.getD j []) →
      calculateProbability (ds.getD i []) (ds.getD j [])
        + calculateProbability (ds.getD j []) (ds.getD i []) < 1) := by
  have htot := winCounts_add_tie (ds.getD i []) (ds.getD j [])
  rw [hA, hB] at htot
  have hprob : calculateProbability (ds.getD i []) (ds.getD j [])
      + calculateProbability (ds.getD j []) (ds.getD i [])
      = ((roundNat (specWinCount (ds.getD i []) (ds.getD j []))
          + roundNat (specWinCount (ds.getD j []) (ds.getD i [])) : Nat) : Rat)
        / 10000 := by
    rw [calculateProbability_eq_roundNat, calculateProbability_eq_roundNat,
      calculateProbabilityCount_eq_spec, calculateProbabilityCount_eq_spec]
    push_cast
    ring
  refine ⟨by omega, ?_, ?_, ?_⟩
  · rw [calculate_getD ds hi hj]
    simp [hij]
  · rw [hprob, natCast_div_eq_one_iff]
    constructor
    · intro h1
      by_contra hne
      have ht : 0 < tieCount (ds.getD i []) (ds.getD j []) :=
        Nat.pos_of_ne_zero hne
      have hlt := @roundNat_sum_lt
        (specWinCount (ds.getD i []) (ds.getD j []))
        (specWinCount (ds.getD j []) (ds.getD i [])) (by omega)
      omega
    · intro h0
      exact roundNat_sum_eq (by omega)
  · intro ht
    rw [hprob, natCast_div_lt_one_iff]
    exact roundNat_sum_lt (by omega)

theorem tie_handling_witness :
    specWinCount ([[1,2,3,4,5,6],[1,1,1,1,1,1],[3,3,3,3,3,3]].getD 0 [])
        ([[1,2,3,4,5,6],[1,1,1,1,1,1],[3,3,3,3,3,3]].getD 1 [])
      + specWinCount ([[1,2,3,4,5,6],[1,1,1,1,1,1],[3,3,3,3,3,3]].getD 1 [])
        ([[1,2,3,4,5,6],[1,1,1,1,1,1],[3,3,3,3,3,3]].getD 0 []) ≤ 36 ∧
    ((calculate [[1,2,3,4,5,6],[1,1,1,1,1,1],[3,3,3,3,3,3]]).getD 0 []).getD 1
        (MatrixEntry.label "")
      = MatrixEntry.value
          (calculateProbability ([[1,2,3,4,5,6],[1,1,1,1,1,1],[3,3,3,3,3,3]].getD 0 [])
            ([[1,2,3,4,5,6],[1,1,1,1,1,1],[3,3,3,3,3,3]].getD 1 [])) ∧
    (calculateProbability ([[1,2,3,4,5,6],[1,1,1,1,1,1],[3,3,3,3,3,3]].getD 0 [])
        ([[1,2,3,4,5,6],[1,1,1,1,1,1],[3,3,3,3,3,3]].getD 1 [])
      + calculateProbability ([[1,2,3,4,5,6],[1,1,1,1,1,1],[3,3,3,3,3,3]].getD 1 [])
        ([[1,2,3,4,5,6],[1,1,1,1,1,1],[3,3,3,3,3,3]].getD 0 []) = 1
     ↔ tieCount ([[1,2,3,4,5,6],[1,1,1,1,1,1],[3,3,3,3,3,3]].getD 0 [])
        ([[1,2,3,4,5,6],[1,1,1,1,1,1],[3,3,3,3,3,3]].getD 1 []) = 0) ∧
    (0 < tieCount ([[1,2,3,4,5,6],[1,1,1,1,1,1],[3,3,3,3,3,3]].getD 0 [])
        ([[1,2,3,4,5,6],[1,1,1,1,1,1],[3,3,3,3,3,3]].getD 1 []) →
      calculateProbability ([[1,2,3,4,5,6],[1,1,1,1,1,1],[3,3,3,3,3,3]].getD 0 [])
          ([[1,2,3,4,5,6],[1,1,1,1,1,1],[3,3,3,3,3,3]].getD 1 [])
        + calculateProbability ([[1,2,3,4,5,6],[1,1,1,1,1,1],[3,3,3,3,3,3]].getD 1 [])
          ([[1,2,3,4,5,6],[1,1,1,1,1,1],[3,3,3,3,3,3]].getD 0 []) < 1) :=
  tie_handling [[1,2,3,4,5,6],[1,1,1,1,1,1],[3,3,3,3,3,3]] 0 1
    (by decide) (by decide) (by decide) (by decide) (by decide)

theorem toFixed4_zero : toFixed4 0 = 0 := by
  have h : (0 : Rat) = ((0 : Nat) : Rat) / 36 := by norm_num
  rw [h, toFixed4_natCast_div]
  norm_num [roundNat]

theorem toFixed4_half : toFixed4 (1/2) = 1/2 := by
  have h : (1/2 : Rat) = ((18 : Nat) : Rat) / 36 := by norm_num
  rw [h, toFixed4_natCast_div]
  norm_num [roundNat]

/-- C5 (refuting the claim for the `src/t.js` copy): the `t.js` version of
`ProbabilityCalculator.calculate` is not a pure function of the dice
faces — its off-diagonal entries come from `Math.random()` (marked
"Placeholder" in the source), so two runs on the same dice set whose
random streams differ return different matrices. -/
theorem calculateT_not_deterministic :
    calculateT (fun _ _ => 0) [[1,1,1,1,1,1],[2,2,2,2,2,2],[3,3,3,3,3,3]]
      ≠ calculateT (fun _ _ => 1/2) [[1,1,1,1,1,1],[2,2,2,2,2,2],[3,3,3,3,3,3]] := by
  intro hEq
  have h1 : ((calculateT (fun _ _ => (0 : Rat))
      [[1,1,1,1,1,1],[2,2,2,2,2,2],[3,3,3,3,3,3]]).getD 0 []).getD 1 TEntry.selfLabel
      = TEntry.randomStr (toFixed4 0) := by
    rw [calculateT_getD _ _ (by decide) (by decide)]
    simp
  have h2 : ((calculateT (fun _ _ => (1/2 : Rat))
      [[1,1,1,1,1,1],[2,2,2,2,2,2],[3,3,3,3,3,3]]).getD 0 []).getD 1 TEntry.selfLabel
      = TEntry.randomStr (toFixed4 (1/2)) := by
    rw [calculateT_getD _ _ (by decide) (by decide)]
    simp
  rw [hEq, h2] at h1
  have h3 : toFixed4 (1/2) = toFixed4 0 := by
    injection h1
  rw [toFixed4_zero, toFixed4_half] at h3
  norm_num at h3

/-- C9: fair-draw composition — for every `range ≥ 1`, committed value
`ev % range` and numeric opponent contribution `c ∈ [0, range)`, the
realized result of `fairThrow` is `(revealedValue + c) mod range`, which
lies in `[0, range)`; for `range = 1` the result is always 0 while the
same commit-prompt-combine path runs unchanged. -/
theorem fairThrow_mod_result (mac : String → String → String) (ek : String)
    (ev : Nat) (range : Int) (ans : String) (c : Int)
    (hrange : 1 ≤ range) (hx : ans ≠ "x") (hX : ans ≠ "X") (hq : ans ≠ "?")
    (hparse : parseIntJS ans = some c) (hc0 : 0 ≤ c) (hcr : c < range) :
    fairThrow mac range [(ek, ev, ans)]
      = ThrowOutcome.thrown
          (some ((((ev % range.toNat : Nat) : Int) + c) % range)) ∧
    0 ≤ (((ev % range.toNat : Nat) : Int) + c) % range ∧
    (((ev % range.toNat : Nat) : Int) + c) % range < range ∧
    (range = 1 → (((ev % range.toNat : Nat) : Int) + c) % range = 0) := by
  have hnn : (0 : Int) ≤ ((ev % range.toNat : Nat) : Int) + c := by
    have : (0 : Int) ≤ ((ev % range.toNat : Nat) : Int) := Int.natCast_nonneg _
    omega
  have htm : Int.tmod (((ev % range.toNat : Nat) : Int) + c) range
      = (((ev % range.toNat : Nat) : Int) + c) % range :=
    Int.tmod_eq_emod hnn (by omega)
  refine ⟨?_, Int.emod_nonneg _ (by omega), Int.emod_lt_of_pos _ (by omega), ?_⟩
  · simp only [fairThrow, generateRandom, randomInt,
      if_neg (show ¬range ≤ 0 by omega)]
    rw [if_neg (show ¬(ans = "x" ∨ ans = "X") by simp [hx, hX]), if_neg hq, hparse]
    simp only [Option.map_some']
    rw [htm]
  · intro h1
    subst h1
    simp [Int.emod_one]

theorem fairThrow_mod_result_witness :
    fairThrow macDemo 6 [("k", 9, "4")]
      = ThrowOutcome.thrown
          (some (((((9 : Nat) % (6 : Int).toNat : Nat) : Int) + 4) % 6)) ∧
    0 ≤ ((((9 : Nat) % (6 : Int).toNat : Nat) : Int) + 4) % 6 ∧
    ((((9 : Nat) % (6 : Int).toNat : Nat) : Int) + 4) % 6 < 6 ∧
    ((6 : Int) = 1 → ((((9 : Nat) % (6 : Int).toNat : Nat) : Int) + 4) % 6 = 0) :=
  fairThrow_mod_result macDemo "k" 9 6 "4" 4 (by norm_num) (by decide)
    (by decide) (by decide) (by decide) (by norm_num) (by norm_num)

/-- C10: `fairThrow` never validates the opponent's contribution against
`[0, range)` — for every answer other than `"x"`, `"X"`, `"?"` it returns
`(randomValue + parseInt(answer, 10)) % range` on whatever `parseInt`
yields: a non-numeric answer gives `NaN` (`none`) as the round result,
which used as a face index produces an undefined face, and an answer with
a numeric prefix is silently truncated to its leading integer. -/
theorem fairThrow_no_contribution_validation (mac : String → String → String)
    (ek : String) (ev : Nat) (range : Int) (ans : String)
    (hrange : 1 ≤ range) (hx : ans ≠ "x") (hX : ans ≠ "X") (hq : ans ≠ "?") :
    fairThrow mac range [(ek, ev, ans)]
      = ThrowOutcome.thrown ((parseIntJS ans).map
          (fun p => Int.tmod (((ev % range.toNat : Nat) : Int) + p) range)) ∧
    parseIntJS "abc" = none ∧
    roll [1,2,3,4,5,6] none = none ∧
    parseIntJS "3abc" = some 3 := by
  refine ⟨?_, by decide, by rfl, by decide⟩
  simp only [fairThrow, generateRandom, randomInt,
    if_neg (show ¬range ≤ 0 by omega)]
  simp [hx, hX, hq]

theorem fairThrow_no_contribution_validation_witness :
    fairThrow macDemo 6 [("k", 9, "abc")]
      = ThrowOutcome.thrown ((parseIntJS "abc").map
          (fun p => Int.tmod ((((9 : Nat) % (6 : Int).toNat : Nat) : Int) + p) 6)) :=
  (fairThrow_no_contribution_validation macDemo "k" 9 6 "abc" (by norm_num)
    (by decide) (by decide) (by decide)).1
